import Mathlib

set_option maxRecDepth 10000

/-!
Verification development for `dynamic_shell_server.py`, a gateway exposing
shell-command execution behind a per-command approval cache and an audit log.

The Python module is embedded shallowly:

* the approval store (a Python dict from command signature to approval
  timestamp, persisted as JSON) becomes an association list `ApprovalStore`;
  timestamps are abstracted to `Nat`;
* the operator's interactive answers (read by `input()` in a loop) become a
  list of input lines; exhausting the list models the read channel closing or
  erroring (`except Exception` around `input()`);
* the child process spawned by `subprocess.run` becomes an oracle `RunResult`
  recording which of the mutually exclusive observable outcomes occurred:
  normal completion with an exit code and captured stdout/stderr, a timeout
  (`subprocess.TimeoutExpired`), a `subprocess.SubprocessError`, or any other
  exception (e.g. `FileNotFoundError` for a missing binary);
* the two persisted files become explicit fields of `ServerState`: `file` is
  the parsed content of `approved_commands.json`, `audit` the list of entries
  appended to `audit.log`; whether a write succeeds is an environment flag,
  since the code swallows write failures.
-/

/-- Python's whitespace test (`str.isspace()`), which `str.strip()` strips:
the code points of bidirectional class WS, B or S or of category Zs —
0x09-0x0d, 0x1c-0x1f, space, 0x85 (NEL), 0xa0 (NBSP), 0x1680 (Ogham space),
0x2000-0x200a, 0x2028, 0x2029, 0x202f, 0x205f and 0x3000. -/
def pyStripWs (c : Char) : Bool :=
  c == ' ' || c == '\t' || c == '\n' || c == '\x0b' || c == '\x0c' ||
  c == '\r' || c == '\x1c' || c == '\x1d' || c == '\x1e' || c == '\x1f' ||
  c == '\x85' || c == '\xa0' || c == '\u1680' ||
  ('\u2000' ≤ c && c ≤ '\u200a') ||
  c == '\u2028' || c == '\u2029' || c == '\u202f' || c == '\u205f' ||
  c == '\u3000'

/-- Python's `str.strip()`: remove leading and trailing whitespace. -/
def pyStrip (s : String) : String :=
  ⟨((s.data.dropWhile pyStripWs).reverse.dropWhile pyStripWs).reverse⟩

/-- Python's slice-from-the-start `s[:n]` (slicing counts characters). -/
def pySlice (s : String) (n : Nat) : String :=
  ⟨s.data.take n⟩

/-- One item of the `content` list of a response envelope. -/
structure ContentItem where
  type : String
  text : String
deriving DecidableEq, Repr

/-- The response envelope returned by the tool entry points:
`{"content": [...], "isError": bool}`. -/
structure Envelope where
  content : List ContentItem
  isError : Bool
deriving DecidableEq, Repr

/-- In-memory approval store: association list from command signature to
approval timestamp (`APPROVED_COMMANDS` in the source). -/
abbrev ApprovalStore := List (String × Nat)

/-- First value bound to `k`, mirroring Python dict lookup / `in`. -/
def storeLookup : ApprovalStore → String → Option Nat
  | [], _ => none
  | (k', v) :: rest, k => if k' = k then some v else storeLookup rest k

/-- Python dict assignment `d[k] = v`: update in place if present, else append. -/
def storeInsert : ApprovalStore → String → Nat → ApprovalStore
  | [], k, v => [(k, v)]
  | (k', v') :: rest, k, v =>
      if k' = k then (k, v) :: rest else (k', v') :: storeInsert rest k v

/-- Python `del d[k]`: remove the entry bound to `k`. -/
def storeErase (s : ApprovalStore) (k : String) : ApprovalStore :=
  s.filter (fun p => p.1 != k)

/-- Observable state of `approved_commands.json` as seen by
`load_approved_commands` (lines 26-33): the file may be absent, unreadable
(`open`/`read` raises), malformed (`json.load` or `datetime.fromisoformat`
raises), or hold a well-formed mapping. -/
inductive StoredFile where
  | missing
  | unreadable
  | malformed
  | wellFormed (entries : ApprovalStore)
deriving DecidableEq, Repr

/-- `load_approved_commands` (lines 26-33): returns the parsed mapping when the
file exists and parses; every failure path (including a missing file) falls
through to `return {}` after printing a warning. -/
def load_approved_commands : StoredFile → ApprovalStore
  | .missing => []
  | .unreadable => []
  | .malformed => []
  | .wellFormed entries => entries

/-- One record of `audit.log` (`log_entry` in `log_command_execution`). -/
structure AuditEntry where
  timestamp : Nat
  command : String
  arguments : List String
  success : Bool
  result_summary : String
deriving DecidableEq, Repr

/-- The `result_summary` field (line 54):
`result[:100] + "..." if len(result) > 100 else result`. -/
def mkResultSummary (result : String) : String :=
  if result.length > 100 then pySlice result 100 ++ "..." else result

/-- The `log_entry` dict built by `log_command_execution` (lines 49-55). -/
def mkAuditEntry (timestamp : Nat) (command : String) (args : List String)
    (result : String) (success : Bool) : AuditEntry :=
  { timestamp := timestamp, command := command, arguments := args,
    success := success, result_summary := mkResultSummary result }

/-- `log_command_execution` (lines 46-62): appends one entry to the audit log;
a write failure (`auditOk = false`) is swallowed and leaves the log file as is. -/
def log_command_execution (timestamp : Nat) (command : String)
    (args : List String) (result : String) (success : Bool) (auditOk : Bool)
    (audit : List AuditEntry) : List AuditEntry :=
  if auditOk then audit ++ [mkAuditEntry timestamp command args result success]
  else audit

/-- Mutually exclusive observable outcomes of the `subprocess.run` call
(lines 122-128) as discriminated by the `try`/`except` chain (lines 120-177):
normal completion, `subprocess.TimeoutExpired`, `subprocess.SubprocessError`,
or any other exception (a missing binary raises `FileNotFoundError`, which
lands in the final `except Exception`). -/
inductive RunResult where
  | completed (returncode : Int) (stdout stderr : String)
  | timedOut
  | subprocessError (msg : String)
  | unexpectedError (msg : String)
deriving DecidableEq, Repr

/-- Environment of one `execute_command` call: the operator's input lines, the
current time (one abstract instant per call), the subprocess oracle, and
whether the store save and the audit append succeed. -/
structure Env where
  inputs : List String
  now : Nat
  run : RunResult
  saveOk : Bool
  auditOk : Bool
deriving DecidableEq, Repr

/-- Mutable state surrounding a call: the in-memory `APPROVED_COMMANDS` dict,
the parsed content of `approved_commands.json`, and the audit log entries. -/
structure ServerState where
  approved : ApprovalStore
  file : ApprovalStore
  audit : List AuditEntry
deriving DecidableEq, Repr

/-- Result of one `execute_command` call: the returned envelope, the state
after the call, whether the interactive approval protocol was entered
(the `command_key not in APPROVED_COMMANDS` branch, lines 76-118), and whether
`subprocess.run` was invoked (line 122). -/
structure ExecResult where
  envelope : Envelope
  state : ServerState
  prompted : Bool
  spawnAttempted : Bool
deriving DecidableEq, Repr

/-- Python's `' '.join(args)`: the arguments concatenated with a single space
between consecutive elements. -/
def pyJoinSp : List String → String
  | [] => ""
  | [a] => a
  | a :: rest => a ++ " " ++ pyJoinSp rest

/-- Line 73: `command_key = f"{command} {' '.join(args)}".strip()`. -/
def commandKey (command : String) (args : List String) : String :=
  pyStrip (command ++ " " ++ pyJoinSp args)

/-- The `input()` loop (lines 93-99): each line is stripped; the loop breaks on
the first `"1"`/`"2"`/`"3"` and re-prompts otherwise; `none` models the read
channel closing or erroring (the `except Exception` path, lines 99-106). -/
def readResponse : List String → Option String
  | [] => none
  | line :: rest =>
      let r := pyStrip line
      if r = "1" ∨ r = "2" ∨ r = "3" then some r else readResponse rest

/-- `save_approved_commands` (lines 36-41): on success the file now holds the
given mapping; a write failure is swallowed and leaves the file untouched. -/
def save_approved_commands (commands : ApprovalStore) (saveOk : Bool)
    (file : ApprovalStore) : ApprovalStore :=
  if saveOk then commands else file

/-- The `try` block of lines 120-177: run the child process, classify the
outcome, append the audit entry, and build the envelope. -/
def runPhase (command : String) (args : List String) (env : Env)
    (st : ServerState) : Envelope × ServerState :=
  match env.run with
  | .completed rc out err =>
      if rc = 0 then
        let output := if out ≠ "" then out else "Command completed successfully"
        (⟨[⟨"text", output⟩], false⟩,
         { st with audit := log_command_execution env.now command args output
                              true env.auditOk st.audit })
      else
        let output := if err ≠ "" then "Error: " ++ err
                      else "Command failed with no error message"
        (⟨[⟨"text", output⟩], true⟩,
         { st with audit := log_command_execution env.now command args output
                              false env.auditOk st.audit })
  | .timedOut =>
      let m := "Error: Command timed out after 5 minutes"
      (⟨[⟨"text", m⟩], true⟩,
       { st with audit := log_command_execution env.now command args m
                            false env.auditOk st.audit })
  | .subprocessError e =>
      let m := "Execution Error: " ++ e
      (⟨[⟨"text", m⟩], true⟩,
       { st with audit := log_command_execution env.now command args m
                            false env.auditOk st.audit })
  | .unexpectedError e =>
      let m := "Unexpected Error: " ++ e
      (⟨[⟨"text", m⟩], true⟩,
       { st with audit := log_command_execution env.now command args m
                            false env.auditOk st.audit })

/-- `execute_command` (lines 65-177). If the signature is already approved the
interactive branch is skipped entirely; otherwise the operator's answer decides:
`"3"` returns the denial envelope, `"2"` records the approval in memory and
saves the store before falling through to execution, `"1"` falls through with
no store change. Exhausted input (channel closed/error) yields the
"approval interrupted" envelope. -/
def execute_command (command : String) (args : List String) (env : Env)
    (st : ServerState) : ExecResult :=
  let key := commandKey command args
  match storeLookup st.approved key with
  | some _ =>
      let p := runPhase command args env st
      ⟨p.1, p.2, false, true⟩
  | none =>
      match readResponse env.inputs with
      | none =>
          ⟨⟨[⟨"text", "Command approval interrupted"⟩], true⟩, st, true, false⟩
      | some r =>
          if r = "3" then
            ⟨⟨[⟨"text", "Command execution denied by user"⟩], true⟩,
             st, true, false⟩
          else if r = "2" then
            let approved := storeInsert st.approved key env.now
            let file := save_approved_commands approved env.saveOk st.file
            let p := runPhase command args env
                       { st with approved := approved, file := file }
            ⟨p.1, p.2, true, true⟩
          else
            let p := runPhase command args env st
            ⟨p.1, p.2, true, true⟩

/-- `revoke_command_approval` (lines 202-223): deletes a present signature and
saves, confirming removal; reports "not found" otherwise. -/
def revoke_command_approval (command : String) (saveOk : Bool)
    (st : ServerState) : Envelope × ServerState :=
  match storeLookup st.approved command with
  | some _ =>
      let approved := storeErase st.approved command
      let file := save_approved_commands approved saveOk st.file
      (⟨[⟨"text", "Approval revoked for: " ++ command⟩], false⟩,
       { st with approved := approved, file := file })
  | none =>
      (⟨[⟨"text", "Command not found in approved list: " ++ command⟩], true⟩,
       st)

/-- The `success` flag computed at lines 130-135: exit code 0 and nothing else. -/
def outcomeSuccess : RunResult → Bool
  | .completed rc _ _ => rc == 0
  | _ => false

/-! ## Helper lemmas about the store, the run phase and the entry points -/

theorem storeLookup_insert_self (s : ApprovalStore) (k : String) (v : Nat) :
    storeLookup (storeInsert s k v) k = some v := by
  induction s with
  | nil => simp [storeInsert, storeLookup]
  | cons p rest ih =>
      obtain ⟨k', v'⟩ := p
      by_cases h : k' = k
      · simp [storeInsert, storeLookup, h]
      · simp [storeInsert, storeLookup, h, ih]

theorem storeErase_cons (k₀ : String) (v₀ : Nat) (rest : ApprovalStore)
    (k : String) :
    storeErase ((k₀, v₀) :: rest) k =
      if k₀ = k then storeErase rest k else (k₀, v₀) :: storeErase rest k := by
  by_cases h : k₀ = k <;> simp [storeErase, List.filter_cons, h]

theorem storeLookup_erase_self (s : ApprovalStore) (k : String) :
    storeLookup (storeErase s k) k = none := by
  induction s with
  | nil => rfl
  | cons p rest ih =>
      obtain ⟨k₀, v₀⟩ := p
      rw [storeErase_cons]
      by_cases h : k₀ = k
      · rw [if_pos h]; exact ih
      · rw [if_neg h]; simp [storeLookup, h, ih]

theorem storeLookup_erase_ne (s : ApprovalStore) (k k' : String) (h : k' ≠ k) :
    storeLookup (storeErase s k) k' = storeLookup s k' := by
  induction s with
  | nil => rfl
  | cons p rest ih =>
      obtain ⟨k₀, v₀⟩ := p
      rw [storeErase_cons]
      by_cases h0 : k₀ = k
      · rw [if_pos h0]
        have hk : ¬k₀ = k' := fun hh => h (hh.symm.trans h0)
        simp [storeLookup, hk, ih]
      · rw [if_neg h0]
        simp [storeLookup, ih]

theorem runPhase_approved (c : String) (a : List String) (env : Env)
    (st : ServerState) : (runPhase c a env st).2.approved = st.approved := by
  unfold runPhase
  cases env.run with
  | completed rc out err => dsimp only; split <;> rfl
  | timedOut => rfl
  | subprocessError e => rfl
  | unexpectedError e => rfl

theorem runPhase_file (c : String) (a : List String) (env : Env)
    (st : ServerState) : (runPhase c a env st).2.file = st.file := by
  unfold runPhase
  cases env.run with
  | completed rc out err => dsimp only; split <;> rfl
  | timedOut => rfl
  | subprocessError e => rfl
  | unexpectedError e => rfl

theorem runPhase_fst_state_irrel (c : String) (a : List String) (env : Env)
    (st st' : ServerState) : (runPhase c a env st).1 = (runPhase c a env st').1 := by
  unfold runPhase
  cases env.run with
  | completed rc out err => dsimp only; split <;> rfl
  | timedOut => rfl
  | subprocessError e => rfl
  | unexpectedError e => rfl

theorem execute_approved (c : String) (a : List String) (env : Env)
    (st : ServerState) (ts : Nat)
    (h : storeLookup st.approved (commandKey c a) = some ts) :
    execute_command c a env st =
      ⟨(runPhase c a env st).1, (runPhase c a env st).2, false, true⟩ := by
  unfold execute_command
  simp only [h]

theorem execute_remember (c : String) (a : List String) (env : Env)
    (st : ServerState)
    (hnew : storeLookup st.approved (commandKey c a) = none)
    (hresp : readResponse env.inputs = some "2") :
    execute_command c a env st =
      let approved := storeInsert st.approved (commandKey c a) env.now
      let st1 : ServerState :=
        { st with approved := approved,
                  file := save_approved_commands approved env.saveOk st.file }
      ⟨(runPhase c a env st1).1, (runPhase c a env st1).2, true, true⟩ := by
  unfold execute_command
  simp only [hnew, hresp]
  rw [if_neg (by decide)]
  simp

theorem execute_fall_through (c : String) (a : List String) (env : Env)
    (st : ServerState) (r : String)
    (hnew : storeLookup st.approved (commandKey c a) = none)
    (hresp : readResponse env.inputs = some r)
    (h3 : r ≠ "3") (h2 : r ≠ "2") :
    execute_command c a env st =
      ⟨(runPhase c a env st).1, (runPhase c a env st).2, true, true⟩ := by
  unfold execute_command
  simp only [hnew, hresp]
  rw [if_neg h3, if_neg h2]

theorem execute_deny (c : String) (a : List String) (env : Env)
    (st : ServerState)
    (hnew : storeLookup st.approved (commandKey c a) = none)
    (hresp : readResponse env.inputs = some "3") :
    execute_command c a env st =
      ⟨⟨[⟨"text", "Command execution denied by user"⟩], true⟩, st, true, false⟩ := by
  unfold execute_command
  simp only [hnew, hresp]
  simp

theorem execute_interrupted (c : String) (a : List String) (env : Env)
    (st : ServerState)
    (hnew : storeLookup st.approved (commandKey c a) = none)
    (hresp : readResponse env.inputs = none) :
    execute_command c a env st =
      ⟨⟨[⟨"text", "Command approval interrupted"⟩], true⟩, st, true, false⟩ := by
  unfold execute_command
  simp only [hnew, hresp]

theorem execute_unapproved_prompted (c : String) (a : List String) (env : Env)
    (st : ServerState)
    (hnew : storeLookup st.approved (commandKey c a) = none) :
    (execute_command c a env st).prompted = true := by
  unfold execute_command
  simp only [hnew]
  cases readResponse env.inputs with
  | none => rfl
  | some r => dsimp only; split <;> [rfl; split <;> rfl]

theorem spawn_envelope (c : String) (a : List String) (env : Env)
    (st : ServerState)
    (h : (execute_command c a env st).spawnAttempted = true) :
    (execute_command c a env st).envelope = (runPhase c a env st).1 := by
  cases hl : storeLookup st.approved (commandKey c a) with
  | some ts => rw [execute_approved c a env st ts hl]
  | none =>
      cases hr : readResponse env.inputs with
      | none =>
          rw [execute_interrupted c a env st hl hr] at h
          simp at h
      | some r =>
          by_cases h3 : r = "3"
          · subst h3
            rw [execute_deny c a env st hl hr] at h
            simp at h
          · by_cases h2 : r = "2"
            · subst h2
              rw [execute_remember c a env st hl hr]
              exact runPhase_fst_state_irrel c a env _ st
            · rw [execute_fall_through c a env st r hl hr h3 h2]

theorem runPhase_fst_shape (c : String) (a : List String) (env : Env)
    (st : ServerState) :
    (∃ t, (runPhase c a env st).1.content = [⟨"text", t⟩]) ∧
    (runPhase c a env st).1.isError = !outcomeSuccess env.run := by
  unfold runPhase outcomeSuccess
  cases env.run with
  | completed rc out err =>
      dsimp only
      by_cases h : rc = 0
      · rw [if_pos h]
        subst h
        exact ⟨⟨_, rfl⟩, rfl⟩
      · rw [if_neg h]
        refine ⟨⟨_, rfl⟩, ?_⟩
        have hb : (rc == 0) = false := beq_eq_false_iff_ne.mpr h
        rw [hb]
        rfl
  | timedOut => exact ⟨⟨_, rfl⟩, rfl⟩
  | subprocessError e => exact ⟨⟨_, rfl⟩, rfl⟩
  | unexpectedError e => exact ⟨⟨_, rfl⟩, rfl⟩

theorem data_two_append_ne (a b s t : String) (c₁ c₂ d₁ d₂ : Char)
    (la lb : List Char)
    (ha : a.data = c₁ :: c₂ :: la) (hb : b.data = d₁ :: d₂ :: lb)
    (hne : c₁ ≠ d₁ ∨ c₂ ≠ d₂) : a ++ s ≠ b ++ t := by
  intro he
  have hd := congrArg String.data he
  rw [String.data_append, String.data_append, ha, hb] at hd
  simp only [List.cons_append, List.cons.injEq] at hd
  rcases hne with h | h
  · exact h hd.1
  · exact h hd.2.1

theorem data_two_append_ne_left (a b s : String) (c₁ c₂ d₁ d₂ : Char)
    (la lb : List Char)
    (ha : a.data = c₁ :: c₂ :: la) (hb : b.data = d₁ :: d₂ :: lb)
    (hne : c₁ ≠ d₁ ∨ c₂ ≠ d₂) : a ++ s ≠ b := by
  intro he
  have hd := congrArg String.data he
  rw [String.data_append, ha, hb] at hd
  simp only [List.cons_append, List.cons.injEq] at hd
  rcases hne with h | h
  · exact h hd.1
  · exact h hd.2.1

theorem envelope_ne_of_text_ne (t₁ t₂ : String) (b₁ b₂ : Bool) (h : t₁ ≠ t₂) :
    (⟨[⟨"text", t₁⟩], b₁⟩ : Envelope) ≠ ⟨[⟨"text", t₂⟩], b₂⟩ := by
  intro he
  apply h
  have hc := congrArg Envelope.content he
  simp only [List.cons.injEq, ContentItem.mk.injEq, and_true, true_and] at hc
  exact hc

/-! ## Claim theorems -/

/-- Claim C1: after the operator answers "2" (allow and remember), the very
invocation that granted the approval proceeds to execution, the signature is
recorded in the in-memory store with the call's timestamp, and any immediately
following `execute_command` call with the same command and arguments finds the
signature already approved: it skips the interactive approval protocol and
proceeds straight to execution. -/
theorem remember_applies_now_and_later (command : String) (args : List String)
    (env : Env) (st : ServerState)
    (hnew : storeLookup st.approved (commandKey command args) = none)
    (hresp : readResponse env.inputs = some "2") :
    (execute_command command args env st).spawnAttempted = true ∧
    storeLookup (execute_command command args env st).state.approved
      (commandKey command args) = some env.now ∧
    ∀ env₂ : Env,
      (execute_command command args env₂
        (execute_command command args env st).state).prompted = false ∧
      (execute_command command args env₂
        (execute_command command args env st).state).spawnAttempted = true := by
  have he := execute_remember command args env st hnew hresp
  have happ : storeLookup (execute_command command args env st).state.approved
      (commandKey command args) = some env.now := by
    rw [he]
    dsimp only
    rw [runPhase_approved]
    exact storeLookup_insert_self _ _ _
  refine ⟨by rw [he], happ, fun env₂ => ?_⟩
  rw [execute_approved command args env₂ _ env.now happ]
  exact ⟨rfl, rfl⟩

/-- Witness for C1 at a concrete input: an empty store, operator answer "2",
command `echo hi`. -/
theorem remember_applies_now_and_later_witness :
    (execute_command "echo" ["hi"]
      ⟨["2"], 42, RunResult.completed 0 "hi\n" "", true, true⟩
      ⟨[], [], []⟩).spawnAttempted = true ∧
    storeLookup (execute_command "echo" ["hi"]
      ⟨["2"], 42, RunResult.completed 0 "hi\n" "", true, true⟩
      ⟨[], [], []⟩).state.approved (commandKey "echo" ["hi"]) = some 42 ∧
    ((execute_command "echo" ["hi"]
        ⟨[], 43, RunResult.completed 0 "hi\n" "", true, true⟩
        (execute_command "echo" ["hi"]
          ⟨["2"], 42, RunResult.completed 0 "hi\n" "", true, true⟩
          ⟨[], [], []⟩).state).prompted = false ∧
      (execute_command "echo" ["hi"]
        ⟨[], 43, RunResult.completed 0 "hi\n" "", true, true⟩
        (execute_command "echo" ["hi"]
          ⟨["2"], 42, RunResult.completed 0 "hi\n" "", true, true⟩
          ⟨[], [], []⟩).state).spawnAttempted = true) := by
  have h := remember_applies_now_and_later "echo" ["hi"]
    ⟨["2"], 42, RunResult.completed 0 "hi\n" "", true, true⟩ ⟨[], [], []⟩
    (by decide) (by decide)
  exact ⟨h.1, h.2.1, h.2.2 ⟨[], 43, RunResult.completed 0 "hi\n" "", true, true⟩⟩

/-- Claim C2: when the signature is not approved and the operator answers "3",
`execute_command` returns the denial envelope with `isError = true`, spawns no
child process, and leaves the whole server state (in-memory store, store file,
audit log) unchanged. -/
theorem deny_aborts (command : String) (args : List String) (env : Env)
    (st : ServerState)
    (hnew : storeLookup st.approved (commandKey command args) = none)
    (hresp : readResponse env.inputs = some "3") :
    execute_command command args env st =
      ⟨⟨[⟨"text", "Command execution denied by user"⟩], true⟩,
       st, true, false⟩ :=
  execute_deny command args env st hnew hresp

/-- Witness for C2 at a concrete input: an invalid answer "x" followed by "3";
the call is denied and nothing changes. -/
theorem deny_aborts_witness :
    execute_command "rm" ["-rf", "tmp"]
      ⟨["x", "3"], 7, RunResult.completed 0 "" "", true, true⟩
      ⟨[("ls", 1)], [("ls", 1)], []⟩ =
      ⟨⟨[⟨"text", "Command execution denied by user"⟩], true⟩,
       ⟨[("ls", 1)], [("ls", 1)], []⟩, true, false⟩ :=
  deny_aborts "rm" ["-rf", "tmp"]
    ⟨["x", "3"], 7, RunResult.completed 0 "" "", true, true⟩
    ⟨[("ls", 1)], [("ls", 1)], []⟩ (by decide) (by decide)

/-- Claim C10 (implicit frame effect): when the operator answers "1" (allow
once), the command executes but the approval store is untouched: the in-memory
mapping and the store file are exactly as before, and a later call with the
identical signature enters the interactive approval protocol again. -/
theorem allow_once_frame (command : String) (args : List String) (env : Env)
    (st : ServerState)
    (hnew : storeLookup st.approved (commandKey command args) = none)
    (hresp : readResponse env.inputs = some "1") :
    (execute_command command args env st).state.approved = st.approved ∧
    (execute_command command args env st).state.file = st.file ∧
    (execute_command command args env st).spawnAttempted = true ∧
    ∀ env₂ : Env,
      (execute_command command args env₂
        (execute_command command args env st).state).prompted = true := by
  have he := execute_fall_through command args env st "1" hnew hresp
    (by decide) (by decide)
  refine ⟨?_, ?_, by rw [he], fun env₂ => ?_⟩
  · rw [he]; exact runPhase_approved _ _ _ _
  · rw [he]; exact runPhase_file _ _ _ _
  · apply execute_unapproved_prompted
    rw [he]
    dsimp only
    rw [runPhase_approved]
    exact hnew

/-- Witness for C10 at a concrete input: operator answers "1"; the store and
file stay empty and a second call prompts again. -/
theorem allow_once_frame_witness :
    (execute_command "echo" ["hi"]
      ⟨["1"], 5, RunResult.completed 0 "hi\n" "", true, true⟩
      ⟨[], [], []⟩).state.approved = [] ∧
    (execute_command "echo" ["hi"]
      ⟨["1"], 5, RunResult.completed 0 "hi\n" "", true, true⟩
      ⟨[], [], []⟩).state.file = [] ∧
    (execute_command "echo" ["hi"]
      ⟨["1"], 5, RunResult.completed 0 "hi\n" "", true, true⟩
      ⟨[], [], []⟩).spawnAttempted = true ∧
    (execute_command "echo" ["hi"]
      ⟨["3"], 6, RunResult.completed 0 "" "", true, true⟩
      (execute_command "echo" ["hi"]
        ⟨["1"], 5, RunResult.completed 0 "hi\n" "", true, true⟩
        ⟨[], [], []⟩).state).prompted = true := by
  have h := allow_once_frame "echo" ["hi"]
    ⟨["1"], 5, RunResult.completed 0 "hi\n" "", true, true⟩ ⟨[], [], []⟩
    (by decide) (by decide)
  exact ⟨h.1, h.2.1, h.2.2.1,
    h.2.2.2 ⟨["3"], 6, RunResult.completed 0 "" "", true, true⟩⟩

/-- Claim C5: every envelope produced by `execute_command` carries exactly one
content item, of type "text", and `isError` mirrors the outcome: it is `false`
exactly when a child process was run and exited with code 0; denial,
interruption, timeout, non-zero exit and execution errors all give `true`. -/
theorem envelope_shape_and_isError (command : String) (args : List String)
    (env : Env) (st : ServerState) :
    (∃ t, (execute_command command args env st).envelope.content =
      [⟨"text", t⟩]) ∧
    (execute_command command args env st).envelope.isError =
      !((execute_command command args env st).spawnAttempted &&
        outcomeSuccess env.run) := by
  cases hl : storeLookup st.approved (commandKey command args) with
  | some ts =>
      rw [execute_approved command args env st ts hl]
      dsimp only
      rw [Bool.true_and]
      exact runPhase_fst_shape command args env st
  | none =>
      cases hr : readResponse env.inputs with
      | none =>
          rw [execute_interrupted command args env st hl hr]
          exact ⟨⟨_, rfl⟩, rfl⟩
      | some r =>
          by_cases h3 : r = "3"
          · subst h3
            rw [execute_deny command args env st hl hr]
            exact ⟨⟨_, rfl⟩, rfl⟩
          · by_cases h2 : r = "2"
            · subst h2
              rw [execute_remember command args env st hl hr]
              dsimp only
              rw [Bool.true_and]
              exact runPhase_fst_shape command args env _
            · rw [execute_fall_through command args env st r hl hr h3 h2]
              dsimp only
              rw [Bool.true_and]
              exact runPhase_fst_shape command args env st

/-- Claim C6: revoking an absent signature returns the "not found" envelope
with `isError = true` and leaves the whole state (memory and file) unchanged;
revoking a present signature returns the confirmation envelope, removes
exactly that entry from the in-memory store, and touches no other entry. -/
theorem revoke_found_and_not_found (command : String) (saveOk : Bool)
    (st : ServerState) :
    (storeLookup st.approved command = none →
      revoke_command_approval command saveOk st =
        (⟨[⟨"text", "Command not found in approved list: " ++ command⟩],
          true⟩, st)) ∧
    (∀ ts, storeLookup st.approved command = some ts →
      (revoke_command_approval command saveOk st).1 =
        ⟨[⟨"text", "Approval revoked for: " ++ command⟩], false⟩ ∧
      storeLookup (revoke_command_approval command saveOk st).2.approved
        command = none ∧
      (∀ k, k ≠ command →
        storeLookup (revoke_command_approval command saveOk st).2.approved k =
          storeLookup st.approved k)) := by
  constructor
  · intro h
    unfold revoke_command_approval
    simp only [h]
  · intro ts h
    unfold revoke_command_approval
    simp only [h]
    exact ⟨by trivial, storeLookup_erase_self _ _,
      fun k hk => storeLookup_erase_ne _ _ _ hk⟩

/-- Witness for C6: revoking "nope" on a store holding only "ls" is a
no-change "not found"; revoking "ls" removes it and leaves "cat" lookups as
they were. -/
theorem revoke_found_and_not_found_witness :
    (revoke_command_approval "nope" true ⟨[("ls", 1)], [("ls", 1)], []⟩ =
      (⟨[⟨"text", "Command not found in approved list: " ++ "nope"⟩], true⟩,
       ⟨[("ls", 1)], [("ls", 1)], []⟩)) ∧
    ((revoke_command_approval "ls" true ⟨[("ls", 1)], [("ls", 1)], []⟩).1 =
      ⟨[⟨"text", "Approval revoked for: " ++ "ls"⟩], false⟩ ∧
    storeLookup
      (revoke_command_approval "ls" true
        ⟨[("ls", 1)], [("ls", 1)], []⟩).2.approved "ls" = none ∧
    storeLookup
      (revoke_command_approval "ls" true
        ⟨[("ls", 1)], [("ls", 1)], []⟩).2.approved "cat" =
      storeLookup [("ls", 1)] "cat") := by
  have h1 := (revoke_found_and_not_found "nope" true
    ⟨[("ls", 1)], [("ls", 1)], []⟩).1 (by decide)
  have h2 := (revoke_found_and_not_found "ls" true
    ⟨[("ls", 1)], [("ls", 1)], []⟩).2 1 (by decide)
  exact ⟨h1, h2.1, h2.2.1, h2.2.2 "cat" (by decide)⟩

/-- Claim C7: an exit code of 0 with empty stdout yields the success envelope
with the default "Command completed successfully" text; a non-zero exit with
empty stderr yields the failure envelope with the default "Command failed with
no error message" text. -/
theorem default_output_messages (command : String) (args : List String)
    (env : Env) (st : ServerState) (ts : Nat)
    (happ : storeLookup st.approved (commandKey command args) = some ts) :
    (∀ err, env.run = RunResult.completed 0 "" err →
      (execute_command command args env st).envelope =
        ⟨[⟨"text", "Command completed successfully"⟩], false⟩) ∧
    (∀ rc out, rc ≠ 0 → env.run = RunResult.completed rc out "" →
      (execute_command command args env st).envelope =
        ⟨[⟨"text", "Command failed with no error message"⟩], true⟩) := by
  rw [execute_approved command args env st ts happ]
  dsimp only
  constructor
  · intro err h
    unfold runPhase
    rw [h]
    dsimp only
    rw [if_pos rfl]
    simp
  · intro rc out hrc h
    unfold runPhase
    rw [h]
    dsimp only
    rw [if_neg hrc]
    simp

/-- Witness for C7: concrete approved commands with exit 0 / empty stdout and
exit 1 / empty stderr. -/
theorem default_output_messages_witness :
    (execute_command "true" []
      ⟨[], 3, RunResult.completed 0 "" "", true, true⟩
      ⟨[("true", 1)], [("true", 1)], []⟩).envelope =
      ⟨[⟨"text", "Command completed successfully"⟩], false⟩ ∧
    (execute_command "false" []
      ⟨[], 3, RunResult.completed 1 "" "", true, true⟩
      ⟨[("false", 1)], [("false", 1)], []⟩).envelope =
      ⟨[⟨"text", "Command failed with no error message"⟩], true⟩ := by
  have h1 := (default_output_messages "true" []
    ⟨[], 3, RunResult.completed 0 "" "", true, true⟩
    ⟨[("true", 1)], [("true", 1)], []⟩ 1 (by decide)).1 "" rfl
  have h2 := (default_output_messages "false" []
    ⟨[], 3, RunResult.completed 1 "" "", true, true⟩
    ⟨[("false", 1)], [("false", 1)], []⟩ 1 (by decide)).2 1 ""
    (by decide) rfl
  exact ⟨h1, h2⟩

/-- Claim C8: approval-store persistence failures are swallowed: a load hitting
a read or parse error yields the empty mapping, and when the save after an
"allow and remember" answer fails, the store file is left untouched while the
in-memory mapping still holds the new approval and the command still executes. -/
theorem persistence_fail_soft (command : String) (args : List String)
    (env : Env) (st : ServerState)
    (hnew : storeLookup st.approved (commandKey command args) = none)
    (hresp : readResponse env.inputs = some "2")
    (hsave : env.saveOk = false) :
    load_approved_commands StoredFile.unreadable = [] ∧
    load_approved_commands StoredFile.malformed = [] ∧
    (execute_command command args env st).state.file = st.file ∧
    storeLookup (execute_command command args env st).state.approved
      (commandKey command args) = some env.now ∧
    (execute_command command args env st).spawnAttempted = true := by
  have he := execute_remember command args env st hnew hresp
  refine ⟨rfl, rfl, ?_, ?_, by rw [he]⟩
  · rw [he]
    dsimp only
    rw [runPhase_file]
    simp [save_approved_commands, hsave]
  · rw [he]
    dsimp only
    rw [runPhase_approved]
    exact storeLookup_insert_self _ _ _

/-- Witness for C8: a failing save (`saveOk = false`) after answer "2" leaves
the file as it was while memory gains the entry and the command runs. -/
theorem persistence_fail_soft_witness :
    load_approved_commands StoredFile.unreadable = [] ∧
    load_approved_commands StoredFile.malformed = [] ∧
    (execute_command "echo" ["hi"]
      ⟨["2"], 9, RunResult.completed 0 "hi\n" "", false, true⟩
      ⟨[], [("old", 1)], []⟩).state.file = [("old", 1)] ∧
    storeLookup (execute_command "echo" ["hi"]
      ⟨["2"], 9, RunResult.completed 0 "hi\n" "", false, true⟩
      ⟨[], [("old", 1)], []⟩).state.approved (commandKey "echo" ["hi"]) =
      some 9 ∧
    (execute_command "echo" ["hi"]
      ⟨["2"], 9, RunResult.completed 0 "hi\n" "", false, true⟩
      ⟨[], [("old", 1)], []⟩).spawnAttempted = true :=
  persistence_fail_soft "echo" ["hi"]
    ⟨["2"], 9, RunResult.completed 0 "hi\n" "", false, true⟩
    ⟨[], [("old", 1)], []⟩ (by decide) (by decide) rfl

/-- Claim C9: the audit entry's `result_summary` equals the result when its
length is at most 100 characters, and otherwise equals the first 100
characters followed by the "..." ellipsis marker; `log_command_execution`
appends exactly that entry. -/
theorem audit_summary_truncation (timestamp : Nat) (command : String)
    (args : List String) (result : String) (success : Bool)
    (audit : List AuditEntry) :
    log_command_execution timestamp command args result success true audit =
      audit ++ [mkAuditEntry timestamp command args result success] ∧
    (result.length ≤ 100 →
      (mkAuditEntry timestamp command args result success).result_summary =
        result) ∧
    (100 < result.length →
      (mkAuditEntry timestamp command args result success).result_summary =
        pySlice result 100 ++ "...") := by
  refine ⟨by simp [log_command_execution], ?_, ?_⟩
  · intro h
    unfold mkAuditEntry mkResultSummary
    dsimp only
    rw [if_neg (by omega)]
  · intro h
    unfold mkAuditEntry mkResultSummary
    dsimp only
    rw [if_pos h]

/-- Witness for C9: a short result is kept verbatim; a 150-character result is
cut to its first 100 characters plus the ellipsis marker. -/
theorem audit_summary_truncation_witness :
    log_command_execution 1 "c" [] "short" true true [] =
      [] ++ [mkAuditEntry 1 "c" [] "short" true] ∧
    (mkAuditEntry 1 "c" [] "short" true).result_summary = "short" ∧
    (mkAuditEntry 2 "c" [] (String.mk (List.replicate 150 'a'))
      false).result_summary =
      pySlice (String.mk (List.replicate 150 'a')) 100 ++ "..." := by
  have h1 := audit_summary_truncation 1 "c" [] "short" true []
  have h2 := audit_summary_truncation 2 "c" []
    (String.mk (List.replicate 150 'a')) false []
  exact ⟨h1.1, h1.2.1 (by decide), h2.2.2 (by decide)⟩

/-- Claim C4: every outcome of the subprocess call, including a failure to
start the child process (missing binary, empty command string), is caught and
reported as an `isError = true` envelope holding one text item, and that
envelope is distinct from every envelope the code produces for a non-zero
exit; no path raises an unhandled fault. -/
theorem start_failure_reported (command : String) (args : List String)
    (env : Env) (st : ServerState) (msg : String)
    (hrun : env.run = RunResult.subprocessError msg ∨
            env.run = RunResult.unexpectedError msg)
    (hspawn : (execute_command command args env st).spawnAttempted = true) :
    (execute_command command args env st).envelope.isError = true ∧
    (∃ t, (execute_command command args env st).envelope.content =
      [⟨"text", t⟩]) ∧
    (∀ (env' : Env) (st' : ServerState) (rc : Int) (out err : String),
      env'.run = RunResult.completed rc out err → rc ≠ 0 →
      (execute_command command args env st).envelope ≠
        (runPhase command args env' st').1) := by
  have henv := spawn_envelope command args env st hspawn
  rw [henv]
  rcases hrun with h | h <;> rw [show (runPhase command args env st).1 = _ from
    by unfold runPhase; rw [h]]
  · refine ⟨rfl, ⟨_, rfl⟩, ?_⟩
    intro env' st' rc out err hrun' hrc
    unfold runPhase
    rw [hrun']
    dsimp only
    rw [if_neg hrc]
    dsimp only
    by_cases herr : err ≠ ""
    · rw [if_pos herr]
      exact envelope_ne_of_text_ne _ _ _ _
        (data_two_append_ne "Execution Error: " "Error: " msg err 'E' 'x' 'E'
          'r' ("ecution Error: ".data) ("ror: ".data) rfl rfl
          (Or.inr (by decide)))
    · rw [if_neg herr]
      exact envelope_ne_of_text_ne _ _ _ _
        (data_two_append_ne_left "Execution Error: "
          "Command failed with no error message" msg 'E' 'x' 'C' 'o'
          ("ecution Error: ".data) ("mmand failed with no error message".data)
          rfl rfl (Or.inl (by decide)))
  · refine ⟨rfl, ⟨_, rfl⟩, ?_⟩
    intro env' st' rc out err hrun' hrc
    unfold runPhase
    rw [hrun']
    dsimp only
    rw [if_neg hrc]
    dsimp only
    by_cases herr : err ≠ ""
    · rw [if_pos herr]
      exact envelope_ne_of_text_ne _ _ _ _
        (data_two_append_ne "Unexpected Error: " "Error: " msg err 'U' 'n' 'E'
          'r' ("expected Error: ".data) ("ror: ".data) rfl rfl
          (Or.inl (by decide)))
    · rw [if_neg herr]
      exact envelope_ne_of_text_ne _ _ _ _
        (data_two_append_ne_left "Unexpected Error: "
          "Command failed with no error message" msg 'U' 'n' 'C' 'o'
          ("expected Error: ".data) ("mmand failed with no error message".data)
          rfl rfl (Or.inl (by decide)))

/-- Witness for C4: an approved command whose spawn raises an OS error is
reported as an error envelope different from a concrete non-zero-exit one. -/
theorem start_failure_reported_witness :
    (execute_command "x" []
      ⟨[], 0, RunResult.unexpectedError "No such file or directory", true,
        true⟩ ⟨[("x", 5)], [("x", 5)], []⟩).envelope.isError = true ∧
    (∃ t, (execute_command "x" []
      ⟨[], 0, RunResult.unexpectedError "No such file or directory", true,
        true⟩ ⟨[("x", 5)], [("x", 5)], []⟩).envelope.content =
      [⟨"text", t⟩]) ∧
    (execute_command "x" []
      ⟨[], 0, RunResult.unexpectedError "No such file or directory", true,
        true⟩ ⟨[("x", 5)], [("x", 5)], []⟩).envelope ≠
      (runPhase "x" [] ⟨[], 0, RunResult.completed 1 "" "boom", true, true⟩
        ⟨[], [], []⟩).1 := by
  have h := start_failure_reported "x" []
    ⟨[], 0, RunResult.unexpectedError "No such file or directory", true, true⟩
    ⟨[("x", 5)], [("x", 5)], []⟩ "No such file or directory" (Or.inr rfl)
    (by decide)
  exact ⟨h.1, h.2.1, h.2.2 ⟨[], 0, RunResult.completed 1 "" "boom", true,
    true⟩ ⟨[], [], []⟩ 1 "" "boom" rfl (by decide)⟩

/-! ## Structure of the command signature (claim C3) -/

theorem dropWhile_cons_false (a : Char) (l : List Char)
    (h : pyStripWs a = false) :
    (a :: l).dropWhile pyStripWs = a :: l := by
  simp [List.dropWhile_cons, h]

theorem reverse_append_cons_reverse (w : List Char) (x : Char) (l : List Char) :
    (w ++ x :: l).reverse = l.reverse ++ x :: w.reverse := by
  simp [List.reverse_append]

theorem joinSp_data_cons (a b : String) (rest : List String) :
    (pyJoinSp (a :: b :: rest)).data =
      a.data ++ ' ' :: (pyJoinSp (b :: rest)).data := by
  show (a ++ " " ++ pyJoinSp (b :: rest)).data = _
  rw [String.data_append, String.data_append]
  simp

theorem joinSp_reverse_head : ∀ (args : List String), args ≠ [] →
    (∀ a ∈ args, a.data ≠ [] ∧ ∀ ch ∈ a.data, pyStripWs ch = false) →
    ∃ ch t, (pyJoinSp args).data.reverse = ch :: t ∧ pyStripWs ch = false
  | [], hne, _ => absurd rfl hne
  | [a], _, hw => by
      obtain ⟨hne, hf⟩ := hw a (List.mem_singleton_self a)
      cases hr : a.data.reverse with
      | nil => exact absurd (List.reverse_eq_nil_iff.mp hr) hne
      | cons ch t =>
          refine ⟨ch, t, hr, hf ch ?_⟩
          rw [← List.mem_reverse, hr]
          exact List.mem_cons_self _ _
  | a :: b :: rest, _, hw => by
      obtain ⟨ch, t, hrev, hch⟩ := joinSp_reverse_head (b :: rest)
        (List.cons_ne_nil _ _) (fun x hx => hw x (List.mem_cons_of_mem _ hx))
      refine ⟨ch, t ++ ' ' :: a.data.reverse, ?_, hch⟩
      rw [joinSp_data_cons, reverse_append_cons_reverse, hrev, List.cons_append]

theorem joinSp_data_ne_nil (args : List String) (hne : args ≠ [])
    (hw : ∀ a ∈ args, a.data ≠ [] ∧ ∀ ch ∈ a.data, pyStripWs ch = false) :
    (pyJoinSp args).data ≠ [] := by
  obtain ⟨ch, t, hr, _⟩ := joinSp_reverse_head args hne hw
  intro h
  rw [h] at hr
  exact absurd hr (by simp)

theorem commandKey_data_of_ws_free (c : String) (args : List String)
    (hc1 : c.data ≠ []) (hc2 : ∀ ch ∈ c.data, pyStripWs ch = false)
    (ha : ∀ a ∈ args, a.data ≠ [] ∧ ∀ ch ∈ a.data, pyStripWs ch = false)
    (hne : args ≠ []) :
    (commandKey c args).data = c.data ++ ' ' :: (pyJoinSp args).data := by
  have hdata : (c ++ " " ++ pyJoinSp args).data =
      c.data ++ ' ' :: (pyJoinSp args).data := by
    rw [String.data_append, String.data_append]
    simp
  show (((c ++ " " ++ pyJoinSp args).data.dropWhile
      pyStripWs).reverse.dropWhile pyStripWs).reverse = _
  rw [hdata]
  obtain ⟨ch, t, hrev, hch⟩ := joinSp_reverse_head args hne ha
  have h1 : (c.data ++ ' ' :: (pyJoinSp args).data).dropWhile pyStripWs =
      c.data ++ ' ' :: (pyJoinSp args).data := by
    cases hc0 : c.data with
    | nil => exact absurd hc0 hc1
    | cons ch₀ ct =>
        have hch₀ : pyStripWs ch₀ = false :=
          hc2 ch₀ (by rw [hc0]; exact List.mem_cons_self _ _)
        rw [List.cons_append]
        exact dropWhile_cons_false _ _ hch₀
  have h2 : (c.data ++ ' ' :: (pyJoinSp args).data).reverse.dropWhile
      pyStripWs = (c.data ++ ' ' :: (pyJoinSp args).data).reverse := by
    rw [reverse_append_cons_reverse, hrev, List.cons_append]
    exact dropWhile_cons_false _ _ hch
  rw [h1, h2, List.reverse_reverse]

theorem commandKey_nil_data_of_ws_free (c : String)
    (hc1 : c.data ≠ []) (hc2 : ∀ ch ∈ c.data, pyStripWs ch = false) :
    (commandKey c []).data = c.data := by
  have hdata : (c ++ " " ++ pyJoinSp []).data = c.data ++ [' '] := by
    rw [String.data_append, String.data_append]
    simp [pyJoinSp]
  show (((c ++ " " ++ pyJoinSp []).data.dropWhile
      pyStripWs).reverse.dropWhile pyStripWs).reverse = _
  rw [hdata]
  have h1 : (c.data ++ [' ']).dropWhile pyStripWs = c.data ++ [' '] := by
    cases hc0 : c.data with
    | nil => exact absurd hc0 hc1
    | cons ch₀ ct =>
        have hch₀ : pyStripWs ch₀ = false :=
          hc2 ch₀ (by rw [hc0]; exact List.mem_cons_self _ _)
        rw [List.cons_append]
        exact dropWhile_cons_false _ _ hch₀
  rw [h1]
  have h2 : (c.data ++ [' ']).reverse = ' ' :: c.data.reverse := by simp
  rw [h2]
  have h3 : (' ' :: c.data.reverse).dropWhile pyStripWs =
      c.data.reverse.dropWhile pyStripWs := by
    rw [List.dropWhile_cons]
    simp [show pyStripWs ' ' = true by decide]
  rw [h3]
  have h4 : c.data.reverse.dropWhile pyStripWs = c.data.reverse := by
    cases hr : c.data.reverse with
    | nil => simp
    | cons x xs =>
        have hx : x ∈ c.data := by
          rw [← List.mem_reverse, hr]
          exact List.mem_cons_self _ _
        exact dropWhile_cons_false _ _ (hc2 x hx)
  rw [h4, List.reverse_reverse]

theorem takeWhile_word (w T : List Char)
    (hw : ∀ ch ∈ w, pyStripWs ch = false)
    (hT : T = [] ∨ ∃ u, T = ' ' :: u) :
    (w ++ T).takeWhile (fun ch => !pyStripWs ch) = w := by
  induction w with
  | nil =>
      rcases hT with h | ⟨u, h⟩
      · simp [h]
      · simp [h, List.takeWhile_cons, show pyStripWs ' ' = true by decide]
  | cons x xs ih =>
      have hx : pyStripWs x = false := hw x (List.mem_cons_self _ _)
      rw [List.cons_append, List.takeWhile_cons]
      simp [hx, ih (fun ch hch => hw ch (List.mem_cons_of_mem _ hch))]

theorem joinSp_inj : ∀ (l₁ l₂ : List String),
    (∀ a ∈ l₁, a.data ≠ [] ∧ ∀ ch ∈ a.data, pyStripWs ch = false) →
    (∀ a ∈ l₂, a.data ≠ [] ∧ ∀ ch ∈ a.data, pyStripWs ch = false) →
    (pyJoinSp l₁).data = (pyJoinSp l₂).data → l₁ = l₂
  | [], [], _, _, _ => rfl
  | [], b :: bs, _, h₂, h => by
      exact absurd h.symm (joinSp_data_ne_nil (b :: bs) (List.cons_ne_nil _ _) h₂)
  | a :: as, [], h₁, _, h => by
      exact absurd h (joinSp_data_ne_nil (a :: as) (List.cons_ne_nil _ _) h₁)
  | a :: as, b :: bs, h₁, h₂, h => by
      -- write both sides as word ++ tail
      have hsplit : ∀ (x : String) (xs : List String),
          (pyJoinSp (x :: xs)).data = x.data ++
            (if xs.isEmpty then ([] : List Char) else ' ' :: (pyJoinSp xs).data) := by
        intro x xs
        cases xs with
        | nil => simp [pyJoinSp]
        | cons y ys => rw [joinSp_data_cons]; simp
      have ha := h₁ a (List.mem_cons_self _ _)
      have hb := h₂ b (List.mem_cons_self _ _)
      rw [hsplit a as, hsplit b bs] at h
      have hTa : (if as.isEmpty then ([] : List Char)
          else ' ' :: (pyJoinSp as).data) = [] ∨
          ∃ u, (if as.isEmpty then ([] : List Char)
          else ' ' :: (pyJoinSp as).data) = ' ' :: u := by
        cases as with
        | nil => exact Or.inl (by simp)
        | cons x xs => exact Or.inr ⟨(pyJoinSp (x :: xs)).data, by simp⟩
      have hTb : (if bs.isEmpty then ([] : List Char)
          else ' ' :: (pyJoinSp bs).data) = [] ∨
          ∃ u, (if bs.isEmpty then ([] : List Char)
          else ' ' :: (pyJoinSp bs).data) = ' ' :: u := by
        cases bs with
        | nil => exact Or.inl (by simp)
        | cons x xs => exact Or.inr ⟨(pyJoinSp (x :: xs)).data, by simp⟩
      have hab : a.data = b.data := by
        have t1 := takeWhile_word a.data _ ha.2 hTa
        have t2 := takeWhile_word b.data _ hb.2 hTb
        rw [← t1, ← t2, h]
      have habs : a = b := by
        cases a with
        | mk ad => cases b with
          | mk bd => cases hab; rfl
      have htail := List.append_cancel_left (hab ▸ h)
      cases as with
      | nil =>
          cases bs with
          | nil => rw [habs]
          | cons y ys => simp at htail
      | cons x xs =>
          cases bs with
          | nil => simp at htail
          | cons y ys =>
              simp only [List.isEmpty_cons, if_neg] at htail
              have hrec : (pyJoinSp (x :: xs)).data = (pyJoinSp (y :: ys)).data := by
                simpa using htail
              have := joinSp_inj (x :: xs) (y :: ys)
                (fun z hz => h₁ z (List.mem_cons_of_mem _ hz))
                (fun z hz => h₂ z (List.mem_cons_of_mem _ hz)) hrec
              rw [habs, this]

theorem commandKey_inj_of_ws_free (c : String) (args₁ args₂ : List String)
    (hc1 : c.data ≠ []) (hc2 : ∀ ch ∈ c.data, pyStripWs ch = false)
    (h₁ : ∀ a ∈ args₁, a.data ≠ [] ∧ ∀ ch ∈ a.data, pyStripWs ch = false)
    (h₂ : ∀ a ∈ args₂, a.data ≠ [] ∧ ∀ ch ∈ a.data, pyStripWs ch = false)
    (heq : commandKey c args₁ = commandKey c args₂) : args₁ = args₂ := by
  have hd := congrArg String.data heq
  cases args₁ with
  | nil =>
      cases args₂ with
      | nil => rfl
      | cons b bs =>
          rw [commandKey_nil_data_of_ws_free c hc1 hc2,
            commandKey_data_of_ws_free c (b :: bs) hc1 hc2 h₂
              (List.cons_ne_nil _ _)] at hd
          have := congrArg List.length hd
          simp at this
  | cons a as =>
      cases args₂ with
      | nil =>
          rw [commandKey_data_of_ws_free c (a :: as) hc1 hc2 h₁
              (List.cons_ne_nil _ _),
            commandKey_nil_data_of_ws_free c hc1 hc2] at hd
          have := congrArg List.length hd
          simp at this
      | cons b bs =>
          rw [commandKey_data_of_ws_free c (a :: as) hc1 hc2 h₁
              (List.cons_ne_nil _ _),
            commandKey_data_of_ws_free c (b :: bs) hc1 hc2 h₂
              (List.cons_ne_nil _ _)] at hd
          have htail := List.append_cancel_left hd
          have hJ : (pyJoinSp (a :: as)).data = (pyJoinSp (b :: bs)).data := by
            simpa using htail
          exact joinSp_inj (a :: as) (b :: bs) h₁ h₂ hJ

/-- Counterexample to claim C3 as frozen: the two distinct orderings
`["x", "x x"]` and `["x x", "x"]` of the same two arguments produce the same
signature `"c x x x"`, because arguments are joined with single spaces and
not quoted, so reordering arguments does not always change the signature. -/
theorem commandKey_order_collision :
    commandKey "c" ["x", "x x"] = commandKey "c" ["x x", "x"] ∧
    (["x", "x x"] : List String) ≠ ["x x", "x"] := by
  decide

/-- Claim C3 (amended): computing the signature is deterministic, and argument
order is significant — nothing is canonicalized or sorted, so whenever the
command and all arguments are nonempty and whitespace-free, any change in the
order (indeed any change at all) of the argument list changes the signature.
(Argument lists containing whitespace can collide under reordering, as the
space-joined rendering is not injective there.) -/
theorem commandKey_deterministic_and_order_sensitive :
    (∀ (command : String) (args : List String),
      commandKey command args = commandKey command args) ∧
    (∀ (command : String) (args₁ args₂ : List String),
      command.data ≠ [] → (∀ ch ∈ command.data, pyStripWs ch = false) →
      (∀ a ∈ args₁, a.data ≠ [] ∧ ∀ ch ∈ a.data, pyStripWs ch = false) →
      (∀ a ∈ args₂, a.data ≠ [] ∧ ∀ ch ∈ a.data, pyStripWs ch = false) →
      args₁ ≠ args₂ →
      commandKey command args₁ ≠ commandKey command args₂) :=
  ⟨fun _ _ => rfl,
   fun c a₁ a₂ hc1 hc2 h₁ h₂ hne heq =>
     hne (commandKey_inj_of_ws_free c a₁ a₂ hc1 hc2 h₁ h₂ heq)⟩

/-- Witness for the amended C3: recomputing the signature of `ls -l -a` gives
the same string, and swapping the two flags changes the signature. -/
theorem commandKey_order_sensitive_witness :
    commandKey "ls" ["-l", "-a"] = commandKey "ls" ["-l", "-a"] ∧
    commandKey "ls" ["-l", "-a"] ≠ commandKey "ls" ["-a", "-l"] :=
  ⟨commandKey_deterministic_and_order_sensitive.1 "ls" ["-l", "-a"],
   commandKey_deterministic_and_order_sensitive.2 "ls" ["-l", "-a"]
     ["-a", "-l"] (by decide) (by decide) (by decide) (by decide) (by decide)⟩
